import Mathlib

/-!
Shallow embedding of the real-time media core of a Gemini Live voice/vision
agent frontend: the playback scheduler (`useAudioPlayback.ts`), the microphone
capture pipeline (`useAudioCapture.ts`), the camera frame pacer
(`useCameraCapture.ts`), the connection manager (`useWebSocket.ts`) and the
session controller (`AgentPanel.tsx`).

Times on the audio clock are modelled as rationals, PCM samples as integers,
floating-point samples as rationals, and each hook's mutable refs as fields of
an explicit state record.  Asynchronous inputs (the device clock reading
`ctx.currentTime`, the video element's readiness) enter as explicit per-call
parameters.
-/

namespace Playback

/-- Output sample rate, `AUDIO_RECEIVE_SAMPLE_RATE` in `lib/constants.ts`. -/
def AUDIO_RECEIVE_SAMPLE_RATE : ℚ := 24000

/-- State of `useAudioPlayback`: whether a live `AudioContext` exists
(`ctxRef.current`, lazily created by `getContext`), the next free start time
(`nextTimeRef.current`) and the playing flag (`isPlayingRef.current`). -/
structure PlaybackState where
  hasCtx : Bool
  nextTime : ℚ
  isPlaying : Bool
deriving DecidableEq

/-- The `Int16 → Float32` decode step inside `playChunk`:
`float32[i] = int16[i] / 32768`. -/
def int16ToFloat (i : ℤ) : ℚ := (i : ℚ) / 32768

/-- One playable unit as `playChunk` schedules it, instrumented with the
cursor value (`nextTimeRef.current`) and the device clock reading
(`ctx.currentTime`) observed at the call. -/
structure SchedUnit where
  cursorBefore : ℚ
  now : ℚ
  start : ℚ
  dur : ℚ
  samples : List ℚ
deriving DecidableEq

/-- `playChunk(pcmData)`: decode the PCM chunk to floats, build a buffer whose
duration is `samples / rate`, start it at `max(ctx.currentTime, nextTime)`,
and advance the cursor to `startTime + buffer.duration`.  `getContext` has
ensured a context exists, so `hasCtx` is true afterwards.  `now` is the value
`ctx.currentTime` reads at this call. -/
def playChunk (st : PlaybackState) (now : ℚ) (pcm : List ℤ) :
    PlaybackState × SchedUnit :=
  let samples := pcm.map int16ToFloat
  let dur := (pcm.length : ℚ) / AUDIO_RECEIVE_SAMPLE_RATE
  let startTime := max now st.nextTime
  (⟨true, startTime + dur, true⟩, ⟨st.nextTime, now, startTime, dur, samples⟩)

/-- `flush()`: close and drop the `AudioContext` (if any), reset the cursor to
zero and clear the playing flag. -/
def flush (_st : PlaybackState) : PlaybackState := ⟨false, 0, false⟩

/-- A sequence of `playChunk` calls with no intervening `flush`, run left to
right; each call supplies the clock reading observed at that call.  Returns
the final state and the schedule of units in call order. -/
def runChunks (st : PlaybackState) :
    List (ℚ × List ℤ) → PlaybackState × List SchedUnit
  | [] => (st, [])
  | c :: rest =>
    let step := playChunk st c.1 c.2
    let restRun := runChunks step.1 rest
    (restRun.1, step.2 :: restRun.2)

/-- Total duration of the buffers a call sequence schedules. -/
def sumDur (calls : List (ℚ × List ℤ)) : ℚ :=
  (calls.map (fun c => (c.2.length : ℚ) / AUDIO_RECEIVE_SAMPLE_RATE)).sum

theorem sumDur_cons (c : ℚ × List ℤ) (rest : List (ℚ × List ℤ)) :
    sumDur (c :: rest) = (c.2.length : ℚ) / AUDIO_RECEIVE_SAMPLE_RATE + sumDur rest := by
  simp [sumDur]

theorem runChunks_cons (st : PlaybackState) (c : ℚ × List ℤ) (rest : List (ℚ × List ℤ)) :
    runChunks st (c :: rest)
      = ((runChunks (playChunk st c.1 c.2).1 rest).1,
         (playChunk st c.1 c.2).2 :: (runChunks (playChunk st c.1 c.2).1 rest).2) := rfl

theorem playChunk_start (st : PlaybackState) (now : ℚ) (pcm : List ℤ) :
    (playChunk st now pcm).2.start = max now st.nextTime := rfl

theorem playChunk_nextTime (st : PlaybackState) (now : ℚ) (pcm : List ℤ) :
    (playChunk st now pcm).1.nextTime
      = max now st.nextTime + (pcm.length : ℚ) / AUDIO_RECEIVE_SAMPLE_RATE := rfl

theorem sumDur_nonneg (calls : List (ℚ × List ℤ)) : 0 ≤ sumDur calls := by
  induction calls with
  | nil => simp [sumDur]
  | cons c rest ih =>
    rw [sumDur_cons]
    have hd : 0 ≤ (c.2.length : ℚ) / AUDIO_RECEIVE_SAMPLE_RATE := by
      apply div_nonneg (Nat.cast_nonneg _)
      norm_num [AUDIO_RECEIVE_SAMPLE_RATE]
    linarith

/-- The cursor grows by at least the total scheduled duration. -/
theorem runChunks_cursor_le (st : PlaybackState) (calls : List (ℚ × List ℤ)) :
    st.nextTime + sumDur calls ≤ (runChunks st calls).1.nextTime := by
  induction calls generalizing st with
  | nil => simp [runChunks, sumDur]
  | cons c rest ih =>
    have hstep : st.nextTime + (c.2.length : ℚ) / AUDIO_RECEIVE_SAMPLE_RATE
        ≤ (playChunk st c.1 c.2).1.nextTime := by
      simp only [playChunk]
      have h := le_max_right c.1 st.nextTime
      linarith
    have htail := ih (playChunk st c.1 c.2).1
    rw [sumDur_cons]
    calc st.nextTime + ((c.2.length : ℚ) / AUDIO_RECEIVE_SAMPLE_RATE + sumDur rest)
        ≤ (playChunk st c.1 c.2).1.nextTime + sumDur rest := by linarith
      _ ≤ (runChunks (playChunk st c.1 c.2).1 rest).1.nextTime := htail
      _ = (runChunks st (c :: rest)).1.nextTime := by simp [runChunks]

/-- Per-unit facts: each start time is `max(clockNow, cursor)`, hence at least
the cursor, and durations are nonnegative. -/
theorem runChunks_units (st : PlaybackState) (calls : List (ℚ × List ℤ)) :
    ∀ u ∈ (runChunks st calls).2,
      u.start = max u.now u.cursorBefore ∧ u.cursorBefore ≤ u.start ∧ 0 ≤ u.dur := by
  induction calls generalizing st with
  | nil => simp [runChunks]
  | cons c rest ih =>
    intro u hu
    simp only [runChunks, List.mem_cons] at hu
    rcases hu with h | h
    · subst h
      refine ⟨rfl, le_max_right _ _, ?_⟩
      show (0 : ℚ) ≤ (c.2.length : ℚ) / AUDIO_RECEIVE_SAMPLE_RATE
      apply div_nonneg (Nat.cast_nonneg _)
      norm_num [AUDIO_RECEIVE_SAMPLE_RATE]
    · exact ih _ u h

/-- Consecutive units relay the cursor (the next unit's observed cursor is the
previous unit's end time) and never overlap. -/
theorem runChunks_chain (st : PlaybackState) (calls : List (ℚ × List ℤ)) :
    List.Chain' (fun a b => b.cursorBefore = a.start + a.dur ∧ a.start + a.dur ≤ b.start)
      (runChunks st calls).2 := by
  induction calls generalizing st with
  | nil => simp [runChunks]
  | cons c rest ih =>
    have htail := ih (playChunk st c.1 c.2).1
    cases rest with
    | nil => simp [runChunks]
    | cons c2 rest2 =>
      simp only [runChunks] at htail ⊢
      refine List.Chain'.cons ⟨rfl, ?_⟩ htail
      show max c.1 st.nextTime + (c.2.length : ℚ) / AUDIO_RECEIVE_SAMPLE_RATE
          ≤ max c2.1 (max c.1 st.nextTime + (c.2.length : ℚ) / AUDIO_RECEIVE_SAMPLE_RATE)
      exact le_max_right _ _

/-- The first scheduled unit observes the initial cursor. -/
theorem runChunks_headCursor (st : PlaybackState) (calls : List (ℚ × List ℤ)) :
    (((runChunks st calls).2.head?).map SchedUnit.cursorBefore).getD st.nextTime
      = st.nextTime := by
  cases calls with
  | nil => simp [runChunks]
  | cons c rest => simp [runChunks, playChunk]

/-- The total scheduled span (final cursor minus the first unit's start) is at
least the sum of the unit durations. -/
theorem runChunks_span (st : PlaybackState) (calls : List (ℚ × List ℤ)) :
    (((runChunks st calls).2.head?).map SchedUnit.start).getD st.nextTime + sumDur calls
      ≤ (runChunks st calls).1.nextTime := by
  cases calls with
  | nil =>
    simp only [runChunks, List.head?_nil, Option.map_none, Option.getD_none]
    have := sumDur_nonneg ([] : List (ℚ × List ℤ))
    simp [sumDur] at this ⊢
  | cons c rest =>
    have h := runChunks_cursor_le (playChunk st c.1 c.2).1 rest
    rw [sumDur_cons, runChunks_cons]
    show (playChunk st c.1 c.2).2.start
          + ((c.2.length : ℚ) / AUDIO_RECEIVE_SAMPLE_RATE + sumDur rest)
        ≤ (runChunks (playChunk st c.1 c.2).1 rest).1.nextTime
    rw [playChunk_start]
    rw [playChunk_nextTime] at h
    linarith

/-- C1: for every sequence of `playChunk` calls with no intervening `flush`,
each unit's scheduled start time equals `max(clockNow at the call, cursor)`,
the cursor observed by each unit is the previous unit's end time and never
decreases, consecutive units never overlap in playback time, and the total
scheduled span (final cursor minus the first start) is at least the sum of the
unit durations. -/
theorem C1_playback_scheduling (st : PlaybackState) (calls : List (ℚ × List ℤ)) :
    (∀ u ∈ (runChunks st calls).2,
        u.start = max u.now u.cursorBefore ∧ u.cursorBefore ≤ u.start ∧ 0 ≤ u.dur) ∧
    List.Chain' (fun a b => b.cursorBefore = a.start + a.dur ∧ a.start + a.dur ≤ b.start)
      (runChunks st calls).2 ∧
    (((runChunks st calls).2.head?).map SchedUnit.cursorBefore).getD st.nextTime
      = st.nextTime ∧
    st.nextTime + sumDur calls ≤ (runChunks st calls).1.nextTime ∧
    (((runChunks st calls).2.head?).map SchedUnit.start).getD st.nextTime + sumDur calls
      ≤ (runChunks st calls).1.nextTime :=
  ⟨runChunks_units st calls, runChunks_chain st calls, runChunks_headCursor st calls,
   runChunks_cursor_le st calls, runChunks_span st calls⟩

/-- A playback state with no context and cursor zero, as on first render. -/
def initPlayback : PlaybackState := ⟨false, 0, false⟩

def demoCalls : List (ℚ × List ℤ) := [(0, [16384]), (0, [3, 4])]

def demoUnit : SchedUnit := (playChunk initPlayback 0 [16384]).2

/-- C1 witness: the first unit of a concrete two-call run satisfies the start
rule. -/
theorem C1_playback_scheduling_witness :
    demoUnit ∈ (runChunks initPlayback demoCalls).2 ∧
    demoUnit.start = max demoUnit.now demoUnit.cursorBefore ∧ 0 ≤ demoUnit.dur := by
  have hmem : demoUnit ∈ (runChunks initPlayback demoCalls).2 := List.mem_cons_self _ _
  have h := (C1_playback_scheduling initPlayback demoCalls).1 demoUnit hmem
  exact ⟨hmem, h.1, h.2.2⟩

/-- C2: `flush()` tears down the output context and resets the cursor to zero;
the next `playChunk` after a `flush()` lazily reacquires the context and its
start time is `max(clockNow, 0)`, hence is at least the clock reading at that
call, independent of any pre-flush cursor value. -/
theorem C2_flush_fresh_timeline (st : PlaybackState) (now : ℚ) (pcm : List ℤ) :
    (flush st).hasCtx = false ∧ (flush st).nextTime = 0 ∧
    (playChunk (flush st) now pcm).2.start = max now 0 ∧
    now ≤ (playChunk (flush st) now pcm).2.start ∧
    (playChunk (flush st) now pcm).1.hasCtx = true := by
  refine ⟨rfl, rfl, rfl, ?_, rfl⟩
  exact le_max_left _ _

end Playback

namespace Capture

/-- Truncation toward zero, the integer conversion ECMAScript `ToInt16`
applies to a number before taking its low 16 bits. -/
def trunc (q : ℚ) : ℤ := if q < 0 then ⌈q⌉ else ⌊q⌋

/-- Reduction of an integer to the signed 16-bit range, the final step of the
`Int16Array` element store. -/
def toInt16 (n : ℤ) : ℤ := (n + 32768) % 65536 - 32768

/-- The per-sample conversion in `processor.onaudioprocess`:
`const s = Math.max(-1, Math.min(1, float32[i]));`
`int16[i] = s < 0 ? s * 0x8000 : s * 0x7fff;`
where storing a number into an `Int16Array` truncates it toward zero and
wraps it to 16 bits.  The binding `s` is written out inline. -/
def sampleToInt16 (x : ℚ) : ℤ :=
  toInt16 (trunc (if max (-1) (min 1 x) < 0 then max (-1) (min 1 x) * 0x8000
                  else max (-1) (min 1 x) * 0x7fff))

/-- The conversion as the spec words it, for comparison with the code:
`i16 = round(clamp(x, -1, 1) * (x < 0 ? 32768 : 32767))`. -/
def sampleToInt16Spec (x : ℚ) : ℤ :=
  round (max (-1) (min 1 x) * (if x < 0 then 32768 else 32767))

/-- One capture block in, one PCM16 frame out (`onChunk(int16.buffer)`). -/
def processBlock (block : List ℚ) : List ℤ := block.map sampleToInt16

/-- Byte length of the emitted frame: two bytes per 16-bit sample. -/
def frameByteLength (block : List ℚ) : ℕ := 2 * (processBlock block).length

/-- State of `useAudioCapture`: the three hardware refs and the capturing
flag. -/
structure CaptureState where
  hasCtx : Bool
  hasStream : Bool
  hasProcessor : Bool
  isCapturing : Bool
deriving DecidableEq

/-- `stop()`: disconnect the processor, close the context and stop the stream
tracks — each behind an optional-chaining guard, so absent refs are skipped —
then null all refs and clear the flag. -/
def stop (_st : CaptureState) : CaptureState := ⟨false, false, false, false⟩

theorem toInt16_eq_self (n : ℤ) (h1 : -32768 ≤ n) (h2 : n ≤ 32767) :
    toInt16 n = n := by
  unfold toInt16
  omega

/-- The clamped product stays inside the representable 16-bit range, so the
wrap step of the store is the identity. -/
theorem sampleToInt16_eq_trunc (x : ℚ) :
    sampleToInt16 x
      = trunc (if max (-1) (min 1 x) < 0 then max (-1) (min 1 x) * 32768
               else max (-1) (min 1 x) * 32767) := by
  unfold sampleToInt16
  have hs1 : (-1 : ℚ) ≤ max (-1) (min 1 x) := le_max_left _ _
  have hs2 : max (-1) (min 1 x) ≤ 1 := max_le (by norm_num) (min_le_left _ _)
  by_cases h : max (-1) (min 1 x) < 0
  · rw [if_pos h]
    have hq1 : (-32768 : ℚ) ≤ max (-1) (min 1 x) * 32768 := by nlinarith
    have hq2 : max (-1) (min 1 x) * 32768 < 0 := by nlinarith
    apply toInt16_eq_self
    · unfold trunc
      rw [if_pos hq2]
      have hc := Int.le_ceil (max (-1) (min 1 x) * 32768)
      have : ((-32768 : ℤ) : ℚ) ≤ (⌈max (-1) (min 1 x) * 32768⌉ : ℚ) := by
        push_cast
        linarith
      exact_mod_cast this
    · unfold trunc
      rw [if_pos hq2]
      have hc : ⌈max (-1) (min 1 x) * 32768⌉ ≤ 0 := by
        apply Int.ceil_le.mpr
        push_cast
        linarith
      omega
  · rw [if_neg h]
    have hs0 : (0 : ℚ) ≤ max (-1) (min 1 x) := not_lt.mp h
    have hq1 : (0 : ℚ) ≤ max (-1) (min 1 x) * 32767 := by nlinarith
    have hq2 : max (-1) (min 1 x) * 32767 ≤ 32767 := by nlinarith
    apply toInt16_eq_self
    · unfold trunc
      rw [if_neg (not_lt.mpr hq1)]
      have : (0 : ℤ) ≤ ⌊max (-1) (min 1 x) * 32767⌋ := Int.floor_nonneg.mpr hq1
      omega
    · unfold trunc
      rw [if_neg (not_lt.mpr hq1)]
      have hf := Int.floor_le (max (-1) (min 1 x) * 32767)
      have : (⌊max (-1) (min 1 x) * 32767⌋ : ℚ) ≤ ((32767 : ℤ) : ℚ) := by
        push_cast
        linarith
      exact_mod_cast this

/-- C3 counterexample: at input 0.5 the code stores `trunc(0.5 * 32767) =
trunc(16383.5) = 16383`, while the claimed rounding conversion would give
`round(16383.5) = 16384`. -/
theorem C3_counterexample :
    sampleToInt16 (1/2) = 16383 ∧ sampleToInt16Spec (1/2) = 16384 ∧
    sampleToInt16 (1/2) ≠ sampleToInt16Spec (1/2) := by
  have h1 : sampleToInt16 (1/2) = 16383 := by
    norm_num [sampleToInt16, trunc, toInt16, min_def, max_def]
  have h2 : sampleToInt16Spec (1/2) = 16384 := by
    norm_num [sampleToInt16Spec, round_eq, min_def, max_def]
  refine ⟨h1, h2, ?_⟩
  rw [h1, h2]
  decide

/-- C3 (amended): for every input block of N float samples the Capture
Pipeline emits exactly one PCM16 frame of byte length 2N, in which each
sample x is converted by truncating `clamp(x,-1,1) * (32768 if the clamped
sample is negative, else 32767)` toward zero (the `Int16Array` store
truncates, it does not round); the boundary values map exactly:
`-1.0 → -32768`, `1.0 → 32767`, `0.0 → 0`. -/
theorem C3_capture_conversion (block : List ℚ) (x : ℚ) :
    frameByteLength block = 2 * block.length ∧
    sampleToInt16 x
      = trunc (if max (-1) (min 1 x) < 0 then max (-1) (min 1 x) * 32768
               else max (-1) (min 1 x) * 32767) ∧
    sampleToInt16 (-1) = -32768 ∧ sampleToInt16 1 = 32767 ∧ sampleToInt16 0 = 0 := by
  refine ⟨?_, sampleToInt16_eq_trunc x, ?_, ?_, ?_⟩
  · simp [frameByteLength, processBlock]
  · have hc : ⌈(-32768 : ℚ)⌉ = -32768 := by
      rw [show ((-32768 : ℚ)) = ((-32768 : ℤ) : ℚ) by norm_num]
      exact Int.ceil_intCast _
    norm_num [sampleToInt16, trunc, toInt16, min_def, max_def, hc]
  · norm_num [sampleToInt16, trunc, toInt16, min_def, max_def]
  · norm_num [sampleToInt16, trunc, toInt16, min_def, max_def]

end Capture

namespace Camera

/-- State of `useCameraCapture`: the interval timer, the stream, whether the
video element holds a source, the active flag and the frame counter. -/
structure CameraState where
  hasInterval : Bool
  hasStream : Bool
  videoAttached : Bool
  isActive : Bool
  frameCount : ℕ
deriving DecidableEq

/-- What one interval tick observes of its environment: whether
`videoRef.current` and `canvasRef.current` are non-null, the video element's
`readyState`, whether `canvas.getContext("2d")` succeeds, and the base64
payload the current video frame encodes to. -/
structure TickEnv where
  refsReady : Bool
  readyState : ℕ
  ctxOk : Bool
  frameData : String
deriving DecidableEq

/-- Body of the `setInterval` callback installed by `start()`: skip the tick
when the refs are not ready, when `readyState < 2` (the source has produced no
displayable frame yet), or when no 2d context is available; otherwise draw,
encode and forward exactly one frame, bumping the frame counter.  A skipped
tick only logs a warning — it is never surfaced as an error and is not
retried before the next tick. -/
def tick (st : CameraState) (env : TickEnv) : CameraState × List String :=
  if env.refsReady = false then (st, [])
  else if env.readyState < 2 then (st, [])
  else if env.ctxOk = false then (st, [])
  else ({ st with frameCount := st.frameCount + 1 }, [env.frameData])

/-- Run the interval callback over consecutive fixed-interval windows; each
window contributes the (possibly empty) list of frames it emitted. -/
def runTicks (st : CameraState) : List TickEnv → CameraState × List (List String)
  | [] => (st, [])
  | e :: es =>
    let step := tick st e
    let rest := runTicks step.1 es
    (rest.1, step.2 :: rest.2)

/-- `stop()`: clear the interval if set, stop the stream tracks, detach the
video element, clear the flag.  The frame counter is only reset by `start`. -/
def stop (st : CameraState) : CameraState :=
  { st with hasInterval := false, hasStream := false, videoAttached := false,
            isActive := false }

theorem tick_emits (st : CameraState) (env : TickEnv) :
    (tick st env).2.length ≤ 1 ∧ (env.readyState < 2 → (tick st env).2 = []) := by
  unfold tick
  by_cases h1 : env.refsReady = false
  · simp [h1]
  · by_cases h2 : env.readyState < 2
    · simp [h1, h2]
    · by_cases h3 : env.ctxOk = false <;> simp [h1, h2, h3]

theorem runTicks_cons (st : CameraState) (e : TickEnv) (es : List TickEnv) :
    runTicks st (e :: es)
      = ((runTicks (tick st e).1 es).1, (tick st e).2 :: (runTicks (tick st e).1 es).2) :=
  rfl

/-- C7: over any sequence of fixed-interval windows the Frame Pacer emits one
output batch per window, each window's batch holds at most one encoded frame,
and a window in which the video source has not yet produced a displayable
frame (`readyState < 2`) emits no frame at all; a skipped tick changes
nothing and is not retried before the next window. -/
theorem C7_frame_pacer (st : CameraState) (envs : List TickEnv) :
    ((runTicks st envs).2.length = envs.length) ∧
    ∀ p ∈ envs.zip (runTicks st envs).2,
      p.2.length ≤ 1 ∧ (p.1.readyState < 2 → p.2 = []) := by
  induction envs generalizing st with
  | nil => simp [runTicks]
  | cons e es ih =>
    obtain ⟨hlen, hmem⟩ := ih (tick st e).1
    constructor
    · rw [runTicks_cons]
      simpa using hlen
    · intro p hp
      rw [runTicks_cons] at hp
      rw [List.zip_cons_cons, List.mem_cons] at hp
      rcases hp with h | h
      · subst h
        exact tick_emits st e
      · exact hmem p h

def demoEnvNotReady : TickEnv := ⟨true, 0, true, "frame"⟩

/-- C7 witness: a concrete window whose video source is not ready emits no
frame. -/
theorem C7_frame_pacer_witness :
    (demoEnvNotReady, ([] : List String))
        ∈ [demoEnvNotReady].zip (runTicks ⟨true, true, true, true, 0⟩ [demoEnvNotReady]).2 ∧
    ([] : List String) = [] := by
  have h := (C7_frame_pacer ⟨true, true, true, true, 0⟩ [demoEnvNotReady]).2
  have hmem : (demoEnvNotReady, ([] : List String))
      ∈ [demoEnvNotReady].zip (runTicks ⟨true, true, true, true, 0⟩ [demoEnvNotReady]).2 := by
    decide
  exact ⟨hmem, (h _ hmem).2 (by decide)⟩

end Camera

namespace WS

/-- `WebSocket.readyState` values. -/
inductive ReadyState
  | connecting
  | opened
  | closing
  | closed
deriving DecidableEq

/-- The `WSStatus` union of `useWebSocket`. -/
inductive WSStatus
  | disconnected
  | connecting
  | connected
  | error
deriving DecidableEq

/-- An outbound network message. -/
inductive Outbound
  | audioFrame (pcm : List ℤ)
  | image (base64 : String)
  | text (t : String)
  | config (preset : String)
deriving DecidableEq

/-- State of `useWebSocket`: the socket ref (with its ready state when one
exists) and the reported status. -/
structure ConnState where
  ws : Option ReadyState
  status : WSStatus
deriving DecidableEq

/-- `sendAudio(buffer)`: transmit only when `wsRef.current?.readyState ===
WebSocket.OPEN`; otherwise do nothing. -/
def sendAudio (st : ConnState) (buffer : List ℤ) : ConnState × List Outbound :=
  if st.ws = some ReadyState.opened then (st, [Outbound.audioFrame buffer]) else (st, [])

/-- `sendImage(base64Jpeg)`: same guard as `sendAudio`. -/
def sendImage (st : ConnState) (base64Jpeg : String) : ConnState × List Outbound :=
  if st.ws = some ReadyState.opened then (st, [Outbound.image base64Jpeg]) else (st, [])

/-- `sendText(text)`: same guard as `sendAudio`. -/
def sendText (st : ConnState) (text : String) : ConnState × List Outbound :=
  if st.ws = some ReadyState.opened then (st, [Outbound.text text]) else (st, [])

/-- `disconnect()`: close the socket if any, null the ref, set the status. -/
def disconnect (_st : ConnState) : ConnState := ⟨none, WSStatus.disconnected⟩

/-- C8: sending binary audio, an image or text while the socket is not open
(no socket, or one in any non-OPEN ready state) is a silent no-op: nothing is
transmitted, no error is raised and the connection state is unchanged. -/
theorem C8_send_noop (st : ConnState) (buf : List ℤ) (img txt : String)
    (h : st.ws ≠ some ReadyState.opened) :
    sendAudio st buf = (st, []) ∧ sendImage st img = (st, []) ∧
    sendText st txt = (st, []) := by
  refine ⟨?_, ?_, ?_⟩ <;> simp [ sendAudio, sendImage, sendText, h]

/-- C8 witness: a concrete disconnected state drops all three sends. -/
theorem C8_send_noop_witness :
    (⟨none, WSStatus.disconnected⟩ : ConnState).ws ≠ some ReadyState.opened ∧
    sendAudio ⟨none, WSStatus.disconnected⟩ [1, 2] = (⟨none, WSStatus.disconnected⟩, []) ∧
    sendText ⟨none, WSStatus.disconnected⟩ "hi" = (⟨none, WSStatus.disconnected⟩, []) := by
  have h := C8_send_noop ⟨none, WSStatus.disconnected⟩ [1, 2] "img" "hi" (by decide)
  exact ⟨by decide, h.1, h.2.2⟩

end WS

namespace Panel

/-- Transcript entry roles in `AgentPanel.tsx`. -/
inductive Role
  | user
  | assistant
  | system
deriving DecidableEq

/-- A transcript entry as `addEntry` appends it.  The `id` and `timestamp`
fields (wall-clock and randomness) are omitted: no claim mentions them. -/
structure TranscriptEntry where
  role : Role
  text : String
deriving DecidableEq

/-- The `type` tags of the inbound `WSMessage` union. -/
inductive MsgType
  | session_ready
  | transcript
  | input_transcript
  | turn_complete
  | interrupted
  | error
deriving DecidableEq

/-- An inbound control message: a tag plus the optional fields the controller
reads (`session_id` is never read by `handleMessage` and is omitted). -/
structure WSMessage where
  type : MsgType
  text : Option String
  agent : Option String
  message : Option String
deriving DecidableEq

/-- State of `AgentPanel`: the session flag, the displayed agent name, the
transcript, the streaming assistant buffer, and the owned component states. -/
structure PanelState where
  sessionActive : Bool
  agentName : String
  transcript : List TranscriptEntry
  assistantBuffer : String
  playback : Playback.PlaybackState
  capture : Capture.CaptureState
  camera : Camera.CameraState
  conn : WS.ConnState
deriving DecidableEq

/-- `addEntry(role, text)`: append one entry to the transcript. -/
def addEntry (st : PanelState) (role : Role) (text : String) : PanelState :=
  { st with transcript := st.transcript ++ [⟨role, text⟩] }

/-- JavaScript `String.prototype.trim`: strip leading and trailing whitespace
characters, written structurally over the character list. -/
def trimString (s : String) : String :=
  String.mk (((s.data.dropWhile Char.isWhitespace).reverse.dropWhile
    Char.isWhitespace).reverse)

/-- `msg.agent || "general"`: JavaScript `||` falls back to the default when
the field is absent or the empty string. -/
def agentOrDefault (a : Option String) : String :=
  match a with
  | some s => if s = "" then "general" else s
  | none => "general"

/-- The inbound control dispatch `handleMessage` of `AgentPanel.tsx`.
`transcript` appends to the assistant buffer; `input_transcript` adds a user
entry at once when the text is nonempty after trimming; `turn_complete`
flushes a nonempty assistant buffer as one entry; `interrupted` flushes the
playback scheduler, then flushes a nonempty assistant buffer with the
" [interrupted]" marker; `error` adds a system entry. -/
def handleMessage (st : PanelState) (msg : WSMessage) : PanelState :=
  match msg.type with
  | MsgType.session_ready =>
      addEntry { st with agentName := agentOrDefault msg.agent } Role.system
        ("Connected to " ++ agentOrDefault msg.agent ++ " agent.")
  | MsgType.transcript =>
      { st with assistantBuffer := st.assistantBuffer ++ (msg.text.getD "") }
  | MsgType.input_transcript =>
      match msg.text with
      | some t => if t ≠ "" ∧ trimString t ≠ "" then addEntry st Role.user t else st
      | none => st
  | MsgType.turn_complete =>
      if st.assistantBuffer ≠ "" then
        { addEntry st Role.assistant st.assistantBuffer with assistantBuffer := "" }
      else st
  | MsgType.interrupted =>
      let st1 := { st with playback := Playback.flush st.playback }
      if st1.assistantBuffer ≠ "" then
        { addEntry st1 Role.assistant (st1.assistantBuffer ++ " [interrupted]") with
            assistantBuffer := "" }
      else st1
  | MsgType.error =>
      addEntry st Role.system ("Error: " ++ (msg.message.getD "undefined"))

/-- `handleDisconnect`: the socket close handler — back to idle and one
"Session ended." entry. -/
def handleDisconnect (st : PanelState) : PanelState :=
  addEntry { st with sessionActive := false } Role.system "Session ended."

/-- `handleEndSession`: stop the mic, stop the camera, disconnect, return to
idle.  Closing a live socket makes the browser fire its `close` event once,
which runs `handleDisconnect`; when `wsRef.current` is already null,
`disconnect` closes nothing and no event fires. -/
def handleEndSession (st : PanelState) : PanelState :=
  let st1 := { st with capture := Capture.stop st.capture,
                       camera := Camera.stop st.camera }
  match st1.conn.ws with
  | some _ =>
      handleDisconnect
        { st1 with conn := WS.disconnect st1.conn, sessionActive := false }
  | none => { st1 with conn := WS.disconnect st1.conn, sessionActive := false }

/-- The panel state on first render: idle, agent "general", empty transcript
and buffer, nothing acquired. -/
def initPanel : PanelState :=
  ⟨false, "general", [], "", Playback.initPlayback, ⟨false, false, false, false⟩,
   ⟨false, false, false, false, 0⟩, ⟨none, WS.WSStatus.disconnected⟩⟩

end Panel

namespace Panel

/-- C4 counterexample: on the code, an `input_transcript` message emits a user
notification immediately and appends nothing to any accumulator — there is no
per-role accumulator for user text — contrary to the claim that `transcript`
and `input_transcript` both append to an internal accumulator without
emitting a notification per message. -/
theorem C4_counterexample :
    (handleMessage initPanel ⟨MsgType.input_transcript, some "Hi", none, none⟩).transcript
        ≠ initPanel.transcript ∧
    (handleMessage initPanel ⟨MsgType.input_transcript, some "Hi", none, none⟩).transcript
        = [⟨Role.user, "Hi"⟩] ∧
    (handleMessage initPanel ⟨MsgType.input_transcript, some "Hi", none, none⟩).assistantBuffer
        = initPanel.assistantBuffer := by
  refine ⟨?_, ?_, ?_⟩ <;> decide

/-- C4 (amended): `transcript` messages append their text to the assistant
accumulator and emit no notification; `input_transcript` messages do not
accumulate — each emits one user notification immediately when its text is
nonempty and nonblank after trimming, and none otherwise; `turn_complete`
emits exactly one assistant notification carrying the entire accumulated text
when the accumulator is nonempty (none when it is empty) and leaves the
accumulator empty; in particular transcript "Hel", transcript "lo",
turn_complete yields exactly one assistant notification "Hello" and clears
the accumulator. -/
theorem C4_accumulate_and_flush (st : PanelState) (t : String) :
    (handleMessage st ⟨MsgType.transcript, some t, none, none⟩).transcript
        = st.transcript ∧
    (handleMessage st ⟨MsgType.transcript, some t, none, none⟩).assistantBuffer
        = st.assistantBuffer ++ t ∧
    (handleMessage st ⟨MsgType.input_transcript, some t, none, none⟩).assistantBuffer
        = st.assistantBuffer ∧
    (handleMessage st ⟨MsgType.input_transcript, some t, none, none⟩).transcript
        = st.transcript ++ (if t ≠ "" ∧ trimString t ≠ "" then [⟨Role.user, t⟩] else []) ∧
    (handleMessage st ⟨MsgType.turn_complete, none, none, none⟩).transcript
        = st.transcript ++
          (if st.assistantBuffer ≠ "" then [⟨Role.assistant, st.assistantBuffer⟩] else []) ∧
    (handleMessage st ⟨MsgType.turn_complete, none, none, none⟩).assistantBuffer = "" ∧
    (handleMessage (handleMessage (handleMessage { st with assistantBuffer := "" }
          ⟨MsgType.transcript, some "Hel", none, none⟩)
          ⟨MsgType.transcript, some "lo", none, none⟩)
          ⟨MsgType.turn_complete, none, none, none⟩).transcript
        = st.transcript ++ [⟨Role.assistant, "Hello"⟩] ∧
    (handleMessage (handleMessage (handleMessage { st with assistantBuffer := "" }
          ⟨MsgType.transcript, some "Hel", none, none⟩)
          ⟨MsgType.transcript, some "lo", none, none⟩)
          ⟨MsgType.turn_complete, none, none, none⟩).assistantBuffer = "" := by
  refine ⟨rfl, rfl, ?_, ?_, ?_, ?_, rfl, rfl⟩
  · by_cases h : t ≠ "" ∧ trimString t ≠ "" <;> simp [handleMessage, addEntry, h]
  · by_cases h : t ≠ "" ∧ trimString t ≠ "" <;> simp [handleMessage, addEntry, h]
  · by_cases hb : st.assistantBuffer = "" <;> simp [handleMessage, addEntry, hb]
  · by_cases hb : st.assistantBuffer = "" <;> simp [handleMessage, addEntry, hb]

/-- C5 counterexample: with an empty assistant accumulator an `interrupted`
message emits no assistant notification at all (the claim demands one for
every `interrupted` message); the playback flush still happens. -/
theorem C5_counterexample :
    (handleMessage initPanel ⟨MsgType.interrupted, none, none, none⟩).transcript = [] ∧
    (handleMessage initPanel ⟨MsgType.interrupted, none, none, none⟩).playback
        = Playback.flush initPanel.playback :=
  ⟨rfl, rfl⟩

/-- C5 (amended): an inbound `interrupted` message always invokes the
Playback Scheduler flush, and when the assistant accumulator is nonempty it
emits exactly one assistant notification consisting of the accumulated text
appended with " [interrupted]" and clears the accumulator (with an empty
accumulator no notification is emitted). -/
theorem C5_interrupted (st : PanelState) (h : st.assistantBuffer ≠ "") :
    (handleMessage st ⟨MsgType.interrupted, none, none, none⟩).playback
        = Playback.flush st.playback ∧
    (handleMessage st ⟨MsgType.interrupted, none, none, none⟩).transcript
        = st.transcript ++ [⟨Role.assistant, st.assistantBuffer ++ " [interrupted]"⟩] ∧
    (handleMessage st ⟨MsgType.interrupted, none, none, none⟩).assistantBuffer = "" := by
  refine ⟨?_, ?_, ?_⟩ <;> simp [handleMessage, addEntry, Playback.flush, h]

/-- C5 witness: with accumulator "Hel", one assistant notification
"Hel [interrupted]" is emitted. -/
theorem C5_interrupted_witness :
    ({ initPanel with assistantBuffer := "Hel" } : PanelState).assistantBuffer ≠ "" ∧
    (handleMessage { initPanel with assistantBuffer := "Hel" }
        ⟨MsgType.interrupted, none, none, none⟩).transcript
      = [⟨Role.assistant, "Hel [interrupted]"⟩] := by
  refine ⟨by decide, ?_⟩
  rw [(C5_interrupted { initPanel with assistantBuffer := "Hel" } (by decide)).2.1]
  decide

/-- C9: when the assistant accumulator is empty, `turn_complete` changes
nothing (in particular it emits no notification) and `interrupted` emits no
notification either while still invoking the Playback Scheduler flush
unconditionally. -/
theorem C9_empty_buffer_silent (st : PanelState) (h : st.assistantBuffer = "") :
    handleMessage st ⟨MsgType.turn_complete, none, none, none⟩ = st ∧
    handleMessage st ⟨MsgType.interrupted, none, none, none⟩
        = { st with playback := Playback.flush st.playback } := by
  constructor <;> simp [handleMessage, h]

/-- C9 witness: the initial state has an empty accumulator and
`turn_complete` leaves it untouched. -/
theorem C9_empty_buffer_silent_witness :
    initPanel.assistantBuffer = "" ∧
    handleMessage initPanel ⟨MsgType.turn_complete, none, none, none⟩ = initPanel :=
  ⟨rfl, (C9_empty_buffer_silent initPanel rfl).1⟩

/-- C10: a `session_ready` message whose agent field is absent or empty sets
the reported agent name to the default "general" and emits exactly one system
notification announcing the connection. -/
theorem C10_default_agent (st : PanelState) (a : Option String)
    (h : a = none ∨ a = some "") :
    (handleMessage st ⟨MsgType.session_ready, none, a, none⟩).agentName = "general" ∧
    (handleMessage st ⟨MsgType.session_ready, none, a, none⟩).transcript
        = st.transcript ++ [⟨Role.system, "Connected to general agent."⟩] := by
  rcases h with h | h <;> subst h <;> exact ⟨rfl, rfl⟩

/-- C10 witness: a concrete `session_ready` with no agent field. -/
theorem C10_default_agent_witness :
    (handleMessage initPanel ⟨MsgType.session_ready, none, none, none⟩).agentName
        = "general" ∧
    (handleMessage initPanel ⟨MsgType.session_ready, none, none, none⟩).transcript
        = [⟨Role.system, "Connected to general agent."⟩] := by
  have h := C10_default_agent initPanel none (Or.inl rfl)
  refine ⟨h.1, ?_⟩
  rw [h.2]
  decide

/-- C6: every teardown entry point — Capture Pipeline stop, Frame Pacer stop,
Connection Manager disconnect, Playback Scheduler flush, Session Controller
end — is a total function that is a no-op on an already-released or
never-acquired resource (running it twice equals running it once); in
particular calling `handleEndSession` twice changes nothing on the second
call and emits no duplicate "Session ended." notification. -/
theorem C6_teardown_idempotent (cs : Capture.CaptureState) (cam : Camera.CameraState)
    (ws : WS.ConnState) (pb : Playback.PlaybackState) (st : PanelState) :
    Capture.stop (Capture.stop cs) = Capture.stop cs ∧
    Camera.stop (Camera.stop cam) = Camera.stop cam ∧
    WS.disconnect (WS.disconnect ws) = WS.disconnect ws ∧
    Playback.flush (Playback.flush pb) = Playback.flush pb ∧
    handleEndSession (handleEndSession st) = handleEndSession st ∧
    (handleEndSession (handleEndSession st)).transcript
        = (handleEndSession st).transcript := by
  have hend : handleEndSession (handleEndSession st) = handleEndSession st := by
    cases h : st.conn.ws with
    | none =>
        simp [handleEndSession, handleDisconnect, addEntry, h, WS.disconnect,
          Capture.stop, Camera.stop]
    | some r =>
        simp [handleEndSession, handleDisconnect, addEntry, h, WS.disconnect,
          Capture.stop, Camera.stop]
  exact ⟨rfl, rfl, rfl, rfl, hend, congrArg PanelState.transcript hend⟩

end Panel
